import Mathlib

/-!
Verification of the chunking / ingestion / search / reconstruction core of
the claude-ai-conversation-analyzer repository.

Python floats are modelled by `ℚ`, Python strings by `String` (or `List Char`
where character-level indexing and slicing matter), Python sets and dicts by
lists with explicit membership, and fallible operations by `Option`.
-/

/-! ## Text utilities -/

/-- Sentence-terminator test used by both chunkers (`if text[i] in '.!?'`). -/
def sentEnd (c : Char) : Bool := c = '.' || c = '!' || c = '?'

/-- ASCII model of Python `str.lower` applied character-wise. -/
def lowerChar (c : Char) : Char := if c.isUpper then c.toLower else c

/-- Model of Python `text.lower()`. -/
def lowerStr (l : List Char) : List Char := l.map lowerChar

/-- Whitespace test for the ASCII model of Python `str.strip`. -/
def isSpaceChar (c : Char) : Bool := c = ' ' || c = '\t' || c = '\n' || c = '\r'

/-- Model of Python `s.strip()`: drop leading and trailing whitespace. -/
def stripChars (l : List Char) : List Char :=
  ((l.dropWhile isSpaceChar).reverse.dropWhile isSpaceChar).reverse

/-- Python slice `text[s:e]`. -/
def pySlice (text : List Char) (s e : Nat) : List Char := (text.take e).drop s

/-- Helper turning a string literal into the character list used by the model. -/
def kw (s : String) : List Char := s.toList

/-! ## Chunkers

`ConversationChunker.chunk_text` (incremental_data_import.py lines 79-102)
and `SimpleChunker._chunk_conversation` (src/utils/simple_chunker.py lines
34-75).  Both are while-loops over a cursor `start`; they are embedded with
explicit fuel so that termination is a provable statement rather than an
assumption.  The loop bodies below mirror the Python statement by statement.
-/

/-- Boundary search of `chunk_text`:
`for i in range(end, max(start + 1100, start), -1): if text[i] in '.!?': end = i + 1; break`.
`range(e, lb, -1)` enumerates `e, e-1, ..., lb+1`. -/
def chunkTextBoundary (text : List Char) (start e : Nat) : Nat :=
  let lb := max (start + 1100) start
  let idxs := (List.range (e - lb)).map (fun k => e - k)
  match idxs.find? (fun i => sentEnd (text.getD i ' ')) with
  | some i => i + 1
  | none => e

/-- One iteration of the `chunk_text` loop: returns the emitted window
`(start, end)` and the next value of `start`
(`start = end - 200 if end < len(text) else end`). -/
def chunkTextStep (text : List Char) (start : Nat) : (Nat × Nat) × Nat :=
  let e0 := min (start + 1200) text.length
  let e := if e0 < text.length then chunkTextBoundary text start e0 else e0
  ((start, e), if e < text.length then e - 200 else e)

/-- Fueled `while start < len(text)` loop of `chunk_text`, recording the
window `(start, end)` of each iteration. -/
def chunkTextAux (text : List Char) : Nat → Nat → List (Nat × Nat)
  | 0, _ => []
  | fuel + 1, start =>
    if start < text.length then
      let s := chunkTextStep text start
      s.1 :: chunkTextAux text fuel s.2
    else []

/-- The window sequence of `chunk_text` on `text`; fuel `len + 1` is
sufficient because every iteration strictly advances `start`. -/
def chunkTextWindows (text : List Char) : List (Nat × Nat) :=
  chunkTextAux text (text.length + 1) 0

/-- `ConversationChunker.chunk_text`: returns `[text]` when
`len(text) <= 1200`, otherwise the stripped, non-empty window slices. -/
def chunk_text (text : List Char) : List (List Char) :=
  if text.length ≤ 1200 then [text]
  else
    (chunkTextWindows text).filterMap (fun w =>
      let c := stripChars (pySlice text w.1 w.2)
      if c.isEmpty then none else some c)

/-- Boundary search of `SimpleChunker._chunk_conversation`:
`for i in range(end, max(start + self.chunk_size - 100, start), -1)`.
Natural subtraction agrees with Python here because
`max(start + cs - 100, start)` clamps the first argument up to `start ≥ 0`. -/
def simpleBoundary (content : List Char) (start cs e : Nat) : Nat :=
  let lb := max (start + cs - 100) start
  let idxs := (List.range (e - lb)).map (fun k => e - k)
  match idxs.find? (fun i => sentEnd (content.getD i ' ')) with
  | some i => i + 1
  | none => e

/-- One iteration of the `_chunk_conversation` loop: the emitted window and
the next start, `start = max(start + self.chunk_size - self.overlap, end)`. -/
def simpleStep (cs ov : Nat) (content : List Char) (start : Nat) : (Nat × Nat) × Nat :=
  let e0 := min (start + cs) content.length
  let e := if e0 < content.length then simpleBoundary content start cs e0 else e0
  ((start, e), max (start + cs - ov) e)

/-- Fueled `while start < len(content)` loop of `_chunk_conversation`;
`none` means the fuel ran out before the loop exited. -/
def simpleAux (cs ov : Nat) (content : List Char) : Nat → Nat → Option (List (Nat × Nat))
  | 0, _ => none
  | fuel + 1, start =>
    if start < content.length then
      let s := simpleStep cs ov content start
      (simpleAux cs ov content fuel s.2).map (s.1 :: ·)
    else some []

/-- Window sequence of `SimpleChunker._chunk_conversation` with chunk size
`cs` and overlap `ov`. -/
def simpleWindows (cs ov : Nat) (content : List Char) : List (Nat × Nat) :=
  (simpleAux cs ov content (content.length + 1) 0).getD []

/-- The non-empty stripped chunk texts emitted by
`SimpleChunker._chunk_conversation`. -/
def simpleChunkContents (cs ov : Nat) (content : List Char) : List (List Char) :=
  (simpleWindows cs ov content).filterMap (fun w =>
    let c := stripChars (pySlice content w.1 w.2)
    if c.isEmpty then none else some c)

/-! ## Categorizer

`ConversationCategorizer.categorize_content`
(incremental_data_import.py lines 50-72): a first-match if/elif chain of
`any(keyword in text_lower for keyword in [...])` tests.
-/

def programmingKeywords : List (List Char) :=
  [kw "function", kw "code", kw "python", kw "javascript", kw "sql",
   kw "api", kw "database", kw "script"]

def businessKeywords : List (List Char) :=
  [kw "budget", kw "integration", kw "ticket", kw "project", kw "sow",
   kw "requirement"]

def aiKeywords : List (List Char) :=
  [kw "claude", kw "ai assistant", kw "prompt", kw "optimization"]

/-- `any(keyword in text_lower for keyword in kws)` — Python `in` on strings
is the substring (infix) test. -/
def hasAnyKeyword (kws : List (List Char)) (textLower : List Char) : Bool :=
  kws.any (fun k => decide (k <:+: textLower))

/-- `ConversationCategorizer.categorize_content`, the if/elif chain. -/
def categorize_content (text : List Char) : String :=
  let textLower := lowerStr text
  if hasAnyKeyword programmingKeywords textLower then "programming"
  else if hasAnyKeyword businessKeywords textLower then "business_analysis"
  else if hasAnyKeyword aiKeywords textLower then "ai_assistance"
  else "general"

/-- The trigger table of `categorize_content` in declaration order. -/
def categoryTable : List (String × List (List Char)) :=
  [("programming", programmingKeywords),
   ("business_analysis", businessKeywords),
   ("ai_assistance", aiKeywords)]

/-- A keyword is a multi-word phrase when it contains a space. -/
def isMultiWordKw (k : List Char) : Bool := k.contains ' '

/-- Modelled from the spec: the claimed score of a category on a text —
count of single-word keyword hits plus 2 × count of multi-word-phrase hits.
`categorize_content` itself computes no such score; this definition exists
only to compare the claimed algorithm with the code. -/
def claimScore (kws : List (List Char)) (textLower : List Char) : Nat :=
  (kws.filter (fun k => !isMultiWordKw k && decide (k <:+: textLower))).length
  + 2 * (kws.filter (fun k => isMultiWordKw k && decide (k <:+: textLower))).length

/-- First-match reading of the if/elif chain: the first category of the
table any of whose keywords occurs in the lowered text. -/
def firstMatchCategory (table : List (String × List (List Char)))
    (textLower : List Char) : Option String :=
  (table.find? (fun p => hasAnyKeyword p.2 textLower)).map (fun p => p.1)

/-! ## Import ledger (`ImportTracker`)

`_load_history` / `_save_history` / `add_conversation_uuid` /
`is_conversation_imported` (incremental_data_import.py lines 109-179).
The in-memory history holds the identifier collections either as a Python
`set` (fresh default, line 127) or as a `list` (after `json.load` of a saved
file, since `_save_history` serialises the sets as JSON lists).  `set.add`
succeeds; a `list` has no `.add` attribute, so calling it raises — modelled
as `none`.
-/

inductive PyStrColl where
  | pyset (elems : List String)
  | pylist (elems : List String)
deriving DecidableEq, Repr

/-- Python `x in coll`: membership works for sets and lists alike. -/
def PyStrColl.mem (c : PyStrColl) (s : String) : Bool :=
  match c with
  | .pyset l => l.contains s
  | .pylist l => l.contains s

/-- Python `coll.add(x)`: defined on sets, an `AttributeError` on lists. -/
def PyStrColl.add (c : PyStrColl) (s : String) : Option PyStrColl :=
  match c with
  | .pyset l => some (.pyset (if l.contains s then l else l ++ [s]))
  | .pylist _ => none

/-- The in-memory `ImportTracker.history` dictionary.  Folder metadata
values are never consulted by any ledger operation, so `imports` keeps only
the folder-name keys. -/
structure LedgerHistory where
  imports : List String
  conversation_uuids : PyStrColl
  project_uuids : PyStrColl
  last_updated : Option String
deriving DecidableEq, Repr

/-- The fresh default history of `_load_history` (lines 125-130): empty
dict and two empty Python sets. -/
def initialHistory : LedgerHistory :=
  { imports := [], conversation_uuids := .pyset [], project_uuids := .pyset [],
    last_updated := none }

/-- The JSON object written by `_save_history`: the sets have been turned
into lists (`list(self.history["conversation_uuids"])`). -/
structure SavedHistory where
  imports : List String
  conversation_uuids : List String
  project_uuids : List String
  last_updated : Option String
deriving DecidableEq, Repr

/-- Python `list(coll)`. -/
def PyStrColl.toPyList : PyStrColl → List String
  | .pyset l => l
  | .pylist l => l

/-- `_save_history` body (lines 132-144): copy the history, convert the two
sets to lists, stamp `last_updated = now`. -/
def save_history (now : String) (h : LedgerHistory) : SavedHistory :=
  { imports := h.imports,
    conversation_uuids := h.conversation_uuids.toPyList,
    project_uuids := h.project_uuids.toPyList,
    last_updated := some now }

/-- `_load_history` on an existing readable file (lines 118-121):
`json.load` returns the saved object verbatim, so the identifier
collections come back as Python lists, not sets. -/
def load_history (s : SavedHistory) : LedgerHistory :=
  { imports := s.imports,
    conversation_uuids := .pylist s.conversation_uuids,
    project_uuids := .pylist s.project_uuids,
    last_updated := s.last_updated }

/-- `add_conversation_uuid` (lines 163-165):
`self.history["conversation_uuids"].add(conversation_uuid)`. -/
def add_conversation_uuid (h : LedgerHistory) (u : String) : Option LedgerHistory :=
  (h.conversation_uuids.add u).map
    (fun c => { h with conversation_uuids := c })

/-- `add_project_uuid` (lines 167-169). -/
def add_project_uuid (h : LedgerHistory) (u : String) : Option LedgerHistory :=
  (h.project_uuids.add u).map (fun c => { h with project_uuids := c })

/-- `is_conversation_imported` (lines 150-152). -/
def is_conversation_imported (h : LedgerHistory) (u : String) : Bool :=
  h.conversation_uuids.mem u

/-- `is_project_imported` (lines 154-156). -/
def is_project_imported (h : LedgerHistory) (u : String) : Bool :=
  h.project_uuids.mem u

/-- File-system operations a persistence routine can perform. -/
inductive FsOp where
  | write (path : String) (content : SavedHistory)
  | rename (src dst : String)
deriving DecidableEq, Repr

/-- The file-system trace of `_save_history` (lines 140-142): a single
`open(self.tracking_file, 'w')` followed by `json.dump` — one direct
in-place write of the serialised history to the tracking file. -/
def save_history_ops (trackingFile : String) (now : String) (h : LedgerHistory) :
    List FsOp :=
  [.write trackingFile (save_history now h)]

/-- A persistence trace is atomic in the write-to-temp-then-rename sense
when it writes some other path and then renames that path onto the target. -/
def isAtomicTempRename (ops : List FsOp) (target : String) : Prop :=
  ∃ tmp content, tmp ≠ target ∧ ops = [.write tmp content, .rename tmp target]

/-! ## Ingestion pipeline (`IncrementalClaudeDataProcessor`)

`process_folder` and the incremental project/conversation processing
(incremental_data_import.py lines 310-619).  The state is the in-memory
tracker (set-based, as in a fresh process) plus the vector-store collection
contents.  File reading and ChromaDB I/O are the external collaborators:
folder contents are passed in as parsed values, `collection.add` appends to
the store list.
-/

structure PyMessage where
  uuid : String
  text : List Char
  sender : String
  created_at : String
deriving DecidableEq, Repr

structure PyConversation where
  uuid : String
  name : String
  chat_messages : List PyMessage
deriving DecidableEq, Repr

structure PyProject where
  uuid : String
  name : String
  chat_conversations : List PyConversation
deriving DecidableEq, Repr

/-- One record added to the ChromaDB collection by `collection.add`. -/
structure StoredChunk where
  id : String
  document : List Char
  category : String
  conversation_uuid : String
  message_uuid : String
  chunk_index : Nat
deriving DecidableEq, Repr

/-- In-memory tracker of a fresh process: the three collections of
`_load_history`'s default are sets, modelled as lists with
insert-if-missing updates. -/
structure TrackerState where
  imports : List String
  conversation_uuids : List String
  project_uuids : List String
deriving DecidableEq, Repr

/-- Python `set.add` on the list model: append only when missing. -/
def setAdd (l : List String) (s : String) : List String :=
  if l.contains s then l else l ++ [s]

structure PipelineState where
  tracker : TrackerState
  store : List StoredChunk
deriving DecidableEq, Repr

/-- `ImportTracker.is_folder_imported`: `folder_name in self.history["imports"]`. -/
def is_folder_imported (t : TrackerState) (folderName : String) : Bool :=
  t.imports.contains folderName

/-- `ImportTracker.mark_folder_imported`: dict assignment on `imports`
(key set grows by the folder name) followed by `_save_history`. -/
def mark_folder_imported (t : TrackerState) (folderName : String) : TrackerState :=
  { t with imports := setAdd t.imports folderName }

/-- The chunk records created for one message of a conversation
(the inner `for i, chunk in enumerate(chunks)` loop of
`_process_single_conversation`, lines 513-550; the project path lines
447-487 builds the same ids from the same fields). -/
def messageChunks (convUuid : String) (msg : PyMessage) : List StoredChunk :=
  (chunk_text msg.text).enum.map (fun p =>
    { id := convUuid ++ "_" ++ msg.uuid ++ "_" ++ toString p.1,
      document := p.2,
      category := categorize_content p.2,
      conversation_uuid := convUuid,
      message_uuid := msg.uuid,
      chunk_index := p.1 })

/-- `_process_single_conversation` (lines 501-558): for each message with
non-blank text, chunk it and add every chunk to the collection; returns the
new store and `chunks_created`. -/
def process_single_conversation (conv : PyConversation) (store : List StoredChunk) :
    List StoredChunk × Nat :=
  conv.chat_messages.foldl
    (fun acc msg =>
      if (stripChars msg.text).isEmpty then acc
      else
        let cs := messageChunks conv.uuid msg
        (acc.1 ++ cs, acc.2 + cs.length))
    (store, 0)

/-- `_process_single_project` (lines 428-499): the same per-message chunk
loop over every conversation of the project. -/
def process_single_project (proj : PyProject) (store : List StoredChunk) :
    List StoredChunk × Nat :=
  proj.chat_conversations.foldl
    (fun acc conv =>
      let r := process_single_conversation conv acc.1
      (r.1, acc.2 + r.2))
    (store, 0)

/-- Per-file counters returned by the incremental processors. -/
structure ProcCounts where
  processed : Nat
  skipped : Nat
  failed : Nat
  chunks : Nat
deriving DecidableEq, Repr

/-- `process_conversations_incremental` (lines 369-426): skip records
without a uuid, skip records already in the ledger, otherwise process and
add the uuid to the tracking set. -/
def process_conversations_incremental (convs : List PyConversation)
    (st : PipelineState) : PipelineState × ProcCounts :=
  convs.foldl
    (fun acc conv =>
      let (s, c) := acc
      if conv.uuid = "" then acc
      else if s.tracker.conversation_uuids.contains conv.uuid then
        (s, { c with skipped := c.skipped + 1 })
      else
        let r := process_single_conversation conv s.store
        ({ tracker :=
             { s.tracker with
               conversation_uuids := setAdd s.tracker.conversation_uuids conv.uuid },
           store := r.1 },
         { c with processed := c.processed + 1, chunks := c.chunks + r.2 }))
    (st, ⟨0, 0, 0, 0⟩)

/-- `process_projects_incremental` (lines 310-367). -/
def process_projects_incremental (projs : List PyProject)
    (st : PipelineState) : PipelineState × ProcCounts :=
  projs.foldl
    (fun acc proj =>
      let (s, c) := acc
      if proj.uuid = "" then acc
      else if s.tracker.project_uuids.contains proj.uuid then
        (s, { c with skipped := c.skipped + 1 })
      else
        let r := process_single_project proj s.store
        ({ tracker :=
             { s.tracker with
               project_uuids := setAdd s.tracker.project_uuids proj.uuid },
           store := r.1 },
         { c with processed := c.processed + 1, chunks := c.chunks + r.2 }))
    (st, ⟨0, 0, 0, 0⟩)

/-- Parsed contents of a dated export folder: the optional projects file
and the optional conversations file. -/
structure FolderContents where
  projectsFile : Option (List PyProject)
  conversationsFile : Option (List PyConversation)
deriving DecidableEq, Repr

/-- `analyze_folder_contents` new-project count (lines 279-291). -/
def countNewProjects (t : TrackerState) (ps : List PyProject) : Nat :=
  (ps.filter (fun p => p.uuid ≠ "" && !(t.project_uuids.contains p.uuid))).length

/-- `analyze_folder_contents` new-conversation count (lines 293-306). -/
def countNewConversations (t : TrackerState) (cs : List PyConversation) : Nat :=
  (cs.filter (fun c => c.uuid ≠ "" && !(t.conversation_uuids.contains c.uuid))).length

/-- The dictionary returned by `process_folder`. -/
inductive FolderReport where
  | skipped (reason : String)
  | dryRun
  | done (projects : Option ProcCounts) (conversations : Option ProcCounts)
      (totalChunks : Nat)
deriving DecidableEq, Repr

/-- `IncrementalClaudeDataProcessor.process_folder` (lines 560-619):
skip when already in the ledger and not forced; analyse; dry-run returns the
analysis; otherwise process the projects file then the conversations file
(each only when it exists and has new records) and mark the folder
imported. -/
def process_folder (st : PipelineState) (folderName : String)
    (contents : FolderContents) (forceReimport dryRun : Bool) :
    FolderReport × PipelineState :=
  if !forceReimport && is_folder_imported st.tracker folderName then
    (.skipped "already_imported", st)
  else
    let newProjects := match contents.projectsFile with
      | some ps => countNewProjects st.tracker ps
      | none => 0
    let newConvs := match contents.conversationsFile with
      | some cs => countNewConversations st.tracker cs
      | none => 0
    if dryRun then (.dryRun, st)
    else
      let pStep : PipelineState × Option ProcCounts :=
        match contents.projectsFile with
        | some ps =>
          if newProjects > 0 then
            let r := process_projects_incremental ps st
            (r.1, some r.2)
          else (st, none)
        | none => (st, none)
      let cStep : PipelineState × Option ProcCounts :=
        match contents.conversationsFile with
        | some cs =>
          if newConvs > 0 then
            let r := process_conversations_incremental cs pStep.1
            (r.1, some r.2)
          else (pStep.1, none)
        | none => (pStep.1, none)
      let total := ((pStep.2.map (fun c => c.chunks)).getD 0)
        + ((cStep.2.map (fun c => c.chunks)).getD 0)
      let final : PipelineState :=
        { cStep.1 with tracker := mark_folder_imported cStep.1.tracker folderName }
      (.done pStep.2 cStep.2 total, final)

/-! ## Unified search aggregation

`UnifiedSearchEngine._aggregate_results` (src/search/semantic_search.py
lines 239-253).  Distances are `ℚ`; the Python `list.sort` is stable, as is
insertion sort with a `≤` relation.
-/

structure USearchResult where
  chunk_id : String
  content : List Char
  category : String
  distance : ℚ
  source_type : String
  source_name : String
  rank : Nat
deriving DecidableEq, Repr

/-- Sort key of `_aggregate_results`: ascending distance (lower is better). -/
def distLE (a b : USearchResult) : Prop := a.distance ≤ b.distance

instance : DecidableRel distLE := fun a b => inferInstanceAs (Decidable (a.distance ≤ b.distance))

instance : IsTotal USearchResult distLE := ⟨fun a b => le_total a.distance b.distance⟩

instance : IsTrans USearchResult distLE := ⟨fun _ _ _ => le_trans⟩

/-- The rank-assignment loop `for i, result in enumerate(results):
result.rank = i + 1`, started at 1. -/
def assignRanks : Nat → List USearchResult → List USearchResult
  | _, [] => []
  | i, r :: rs => { r with rank := i } :: assignRanks (i + 1) rs

/-- A default result used only to state index lemmas without `Fin`. -/
def emptyUResult : USearchResult :=
  { chunk_id := "", content := [], category := "", distance := 0,
    source_type := "", source_name := "", rank := 0 }

/-- `_aggregate_results`: early return on empty input, stable sort by
distance, ranks `1..N` in sorted order, truncation to `n_results`. -/
def aggregate_results (results : List USearchResult) (n : Nat) : List USearchResult :=
  if results.isEmpty then []
  else (assignRanks 1 (List.insertionSort distLE results)).take n

/-! ## Recency boost

`calculate_recency_boost` (src/search/optimized_search.py lines 83-107) and
the per-candidate score of `_process_search_results` (lines 327-347).
`daysDiff` is the parsed age in days; `none` models a missing or unparsable
`created_at`, for which the code keeps the raw similarity (boost 1.0).
-/

def calculate_recency_boost (daysDiff : Int) : ℚ :=
  if daysDiff ≤ 7 then 3 / 2
  else if daysDiff ≤ 30 then 6 / 5
  else if daysDiff ≤ 90 then 1
  else 9 / 10

/-- Final relevance score of one candidate in `_process_search_results`:
`similarity = 1 - distance`, multiplied by the recency boost when boosting
is enabled and `created_at` is present. -/
def process_result_score (distance : ℚ) (daysDiff : Option Int)
    (enableRecencyBoost : Bool) : ℚ :=
  let similarity := 1 - distance
  match daysDiff, enableRecencyBoost with
  | some d, true => similarity * calculate_recency_boost d
  | _, _ => similarity

/-! ## Conversation reconstructor

`ConversationReconstructor.reconstruct_conversation`
(src/ai/conversation_reconstructor.py lines 341-468): group the fetched
chunks by `message_uuid` (Python dict preserves first-occurrence key
order), take the message metadata from the first chunk of each group, sort
each group by `chunk_index`, join contents with a single space, and sort
the messages by `message_index`.
-/

structure RawChunk where
  document : List Char
  message_uuid : String
  message_index : Nat
  sender : String
  created_at : String
  updated_at : String
  category : String
  attachment_count : Nat
  chunk_index : Nat
deriving DecidableEq, Repr

structure RMessage where
  message_uuid : String
  message_index : Nat
  sender : String
  content : List Char
  created_at : String
  updated_at : String
  attachments_count : Nat
  chunk_count : Nat
  category : String
deriving DecidableEq, Repr

/-- Chunk-group sort key: ascending `chunk_index`
(`message_data['chunks'].sort(key=lambda x: x['chunk_index'])`). -/
def ciLE (a b : RawChunk) : Prop := a.chunk_index ≤ b.chunk_index

instance : DecidableRel ciLE := fun a b => inferInstanceAs (Decidable (a.chunk_index ≤ b.chunk_index))

instance : IsTotal RawChunk ciLE := ⟨fun a b => Nat.le_total a.chunk_index b.chunk_index⟩

instance : IsTrans RawChunk ciLE := ⟨fun _ _ _ => Nat.le_trans⟩

/-- Message sort key: ascending `message_index`
(`reconstructed_messages.sort(key=lambda x: x.message_index)`). -/
def msgLE (a b : RMessage) : Prop := a.message_index ≤ b.message_index

instance : DecidableRel msgLE := fun a b => inferInstanceAs (Decidable (a.message_index ≤ b.message_index))

instance : IsTotal RMessage msgLE := ⟨fun a b => Nat.le_total a.message_index b.message_index⟩

instance : IsTrans RMessage msgLE := ⟨fun _ _ _ => Nat.le_trans⟩

/-- The `messages_data` dict keys in first-occurrence order; chunks whose
`message_uuid` is falsy are skipped (`if not message_uuid: continue`). -/
def groupKeys (chunks : List RawChunk) : List String :=
  chunks.foldl
    (fun acc c =>
      if c.message_uuid = "" then acc
      else if acc.contains c.message_uuid then acc
      else acc ++ [c.message_uuid])
    []

/-- The chunks of one message in store-return (arrival) order. -/
def chunksOf (chunks : List RawChunk) (u : String) : List RawChunk :=
  chunks.filter (fun c => c.message_uuid == u)

/-- Assembly of one `ReconstructedMessage`: metadata from the first chunk
seen for the uuid, chunk list sorted by `chunk_index`, contents joined by
`' '.join`. -/
def buildMessage (u : String) (group : List RawChunk) : RMessage :=
  let sortedChunks := List.insertionSort ciLE group
  { message_uuid := u,
    message_index := ((group.head?.map (fun c => c.message_index)).getD 0),
    sender := ((group.head?.map (fun c => c.sender)).getD ""),
    content := List.intercalate [' '] (sortedChunks.map (fun c => c.document)),
    created_at := ((group.head?.map (fun c => c.created_at)).getD ""),
    updated_at := ((group.head?.map (fun c => c.updated_at)).getD ""),
    attachments_count := ((group.head?.map (fun c => c.attachment_count)).getD 0),
    chunk_count := group.length,
    category := ((group.head?.map (fun c => c.category)).getD "general") }

/-- The message-reconstruction core of `reconstruct_conversation`
(lines 365-430): build one message per group, then sort by
`message_index`. -/
def reconstruct_messages (chunks : List RawChunk) : List RMessage :=
  List.insertionSort msgLE
    ((groupKeys chunks).map (fun u => buildMessage u (chunksOf chunks u)))

/-! ## Cache layer

`RedisCache.get` / `RedisCache.set` (src/utils/redis_cache.py lines 61-85)
and the `cached_search` wrapper (lines 140-170).  The Redis store is the
external collaborator, modelled as a key/value list with TTLs; when the
layer is marked unavailable every operation short-circuits.
-/

structure CacheState (V : Type) where
  is_available : Bool
  entries : List (String × V × Nat)
deriving Repr

/-- `RedisCache.get`: `None` immediately when unavailable, else the stored
value for the key. -/
def cacheGet {V : Type} (st : CacheState V) (key : String) : Option V :=
  if st.is_available then
    (st.entries.find? (fun e => e.1 == key)).map (fun e => e.2.1)
  else none

/-- `RedisCache.set`: `False` (and no write) when unavailable, else
`setex` overwrites the key with the value and TTL. -/
def cacheSet {V : Type} (st : CacheState V) (key : String) (v : V) (ttl : Nat) :
    Bool × CacheState V :=
  if st.is_available then
    (true, { st with entries := (key, v, ttl) :: st.entries.filter (fun e => e.1 != key) })
  else (false, st)

/-- The `cached_search`/`cached_stats` wrapper body: try the cache, on a
miss call through, store the result (ignoring the success flag) and return
it. -/
def with_cache {V : Type} (st : CacheState V) (key : String) (ttl : Nat)
    (compute : Unit → V) : V × CacheState V :=
  match cacheGet st key with
  | some v => (v, st)
  | none =>
    let result := compute ()
    (result, (cacheSet st key result ttl).2)

/-! ## Concrete sample data used by witness theorems -/

/-- Three store-returned chunks of two messages, deliberately out of order. -/
def demoChunks : List RawChunk :=
  [{ document := kw "world", message_uuid := "m1", message_index := 1, sender := "human",
     created_at := "", updated_at := "", category := "general", attachment_count := 0,
     chunk_index := 1 },
   { document := kw "B", message_uuid := "m2", message_index := 0, sender := "assistant",
     created_at := "", updated_at := "", category := "general", attachment_count := 0,
     chunk_index := 0 },
   { document := kw "hello", message_uuid := "m1", message_index := 1, sender := "human",
     created_at := "", updated_at := "", category := "general", attachment_count := 0,
     chunk_index := 0 }]

/-! ## Helper lemmas -/

theorem chunkTextBoundary_bounds (text : List Char) (start : Nat) :
    start + 1102 ≤ chunkTextBoundary text start (start + 1200)
    ∧ chunkTextBoundary text start (start + 1200) ≤ start + 1201 := by
  unfold chunkTextBoundary
  simp only [Nat.max_eq_left (Nat.le_add_right start 1100)]
  cases hf : (((List.range (start + 1200 - (start + 1100))).map
      (fun k => start + 1200 - k)).find? (fun i => sentEnd (text.getD i ' '))) with
  | none => simp
  | some i =>
    have hmem := List.mem_of_find?_eq_some hf
    simp only [List.mem_map, List.mem_range] at hmem
    obtain ⟨k, hk, hki⟩ := hmem
    simp
    omega

theorem chunkTextStep_fst (text : List Char) (start : Nat) :
    (chunkTextStep text start).1.1 = start := rfl

theorem chunkTextStep_snd_eq (text : List Char) (start : Nat) :
    (chunkTextStep text start).2 =
      if (chunkTextStep text start).1.2 < text.length
      then (chunkTextStep text start).1.2 - 200
      else (chunkTextStep text start).1.2 := rfl

theorem chunkTextStep_end_lb (text : List Char) (start : Nat)
    (h : start < text.length) :
    start + 1102 ≤ (chunkTextStep text start).1.2
    ∨ (chunkTextStep text start).1.2 = text.length := by
  unfold chunkTextStep
  by_cases he : min (start + 1200) text.length < text.length
  · have he' : min (start + 1200) text.length = start + 1200 := by omega
    simp only [he', if_pos (he' ▸ he)]
    exact Or.inl (chunkTextBoundary_bounds text start).1
  · simp only [if_neg he]
    right
    omega

theorem chunkTextStep_next_gt (text : List Char) (start : Nat)
    (h : start < text.length) :
    start < (chunkTextStep text start).2 := by
  have hlb := chunkTextStep_end_lb text start h
  rw [chunkTextStep_snd_eq]
  rcases hlb with hlb | hlb <;> split <;> omega

theorem chunkTextAux_head_fst (text : List Char) (fuel start : Nat) (w : Nat × Nat)
    (h : (chunkTextAux text fuel start).head? = some w) : w.1 = start := by
  cases fuel with
  | zero => simp [chunkTextAux] at h
  | succ fuel =>
    unfold chunkTextAux at h
    by_cases hs : start < text.length
    · simp only [if_pos hs, List.head?_cons, Option.some.injEq] at h
      rw [← h, chunkTextStep_fst]
    · simp [if_neg hs] at h

theorem chunkTextAux_chain (text : List Char) :
    ∀ fuel start, List.Chain'
      (fun w₁ w₂ => w₁.2 < text.length → w₂.1 = w₁.2 - 200)
      (chunkTextAux text fuel start) := by
  intro fuel
  induction fuel with
  | zero => intro start; simp [chunkTextAux]
  | succ fuel ih =>
    intro start
    unfold chunkTextAux
    by_cases hs : start < text.length
    · simp only [if_pos hs]
      rw [List.chain'_cons']
      refine ⟨?_, ih _⟩
      intro w hw
      have hfst := chunkTextAux_head_fst text fuel _ w hw
      intro hcut
      rw [hfst, chunkTextStep_snd_eq, if_pos hcut]
    · simp [if_neg hs]

theorem simpleStep_fst (cs ov : Nat) (content : List Char) (start : Nat) :
    (simpleStep cs ov content start).1.1 = start := rfl

theorem simpleStep_end_le_next (cs ov : Nat) (content : List Char) (start : Nat) :
    (simpleStep cs ov content start).1.2 ≤ (simpleStep cs ov content start).2 :=
  Nat.le_max_right _ _

theorem simpleStep_next_gt (cs ov : Nat) (content : List Char) (start : Nat)
    (hov : ov < cs) : start < (simpleStep cs ov content start).2 := by
  have h := Nat.le_max_left (start + cs - ov) (simpleStep cs ov content start).1.2
  have : (simpleStep cs ov content start).2
      = max (start + cs - ov) (simpleStep cs ov content start).1.2 := rfl
  omega

theorem simpleAux_fuel_sufficient (cs ov : Nat) (content : List Char) (hov : ov < cs) :
    ∀ fuel start, content.length - start < fuel →
      (simpleAux cs ov content fuel start).isSome := by
  intro fuel
  induction fuel with
  | zero => intro start h; omega
  | succ fuel ih =>
    intro start h
    unfold simpleAux
    by_cases hs : start < content.length
    · simp only [if_pos hs]
      have hnext := simpleStep_next_gt cs ov content start hov
      have := ih (simpleStep cs ov content start).2 (by omega)
      cases hx : simpleAux cs ov content fuel (simpleStep cs ov content start).2 with
      | none => rw [hx] at this; simp at this
      | some l => simp [hx]
    · simp [if_neg hs]

theorem simpleAux_head_fst (cs ov : Nat) (content : List Char) (fuel start : Nat)
    (l : List (Nat × Nat)) (w : Nat × Nat)
    (h : simpleAux cs ov content fuel start = some l) (hw : l.head? = some w) :
    w.1 = start := by
  cases fuel with
  | zero => simp [simpleAux] at h
  | succ fuel =>
    unfold simpleAux at h
    by_cases hs : start < content.length
    · simp only [if_pos hs, Option.map_eq_some'] at h
      obtain ⟨t, _, ht⟩ := h
      rw [← ht] at hw
      simp only [List.head?_cons, Option.some.injEq] at hw
      rw [← hw, simpleStep_fst]
    · simp only [if_neg hs, Option.some.injEq] at h
      rw [← h] at hw
      simp at hw

theorem simpleAux_chain (cs ov : Nat) (content : List Char) :
    ∀ fuel start l, simpleAux cs ov content fuel start = some l →
      List.Chain' (fun w₁ w₂ => w₁.2 ≤ w₂.1) l := by
  intro fuel
  induction fuel with
  | zero => intro start l h; simp [simpleAux] at h
  | succ fuel ih =>
    intro start l h
    unfold simpleAux at h
    by_cases hs : start < content.length
    · simp only [if_pos hs, Option.map_eq_some'] at h
      obtain ⟨t, ht, hl⟩ := h
      rw [← hl]
      rw [List.chain'_cons']
      refine ⟨?_, ih _ t ht⟩
      intro w hw
      have hfst := simpleAux_head_fst cs ov content fuel _ t w ht hw
      rw [hfst]
      exact simpleStep_end_le_next cs ov content start
    · simp only [if_neg hs, Option.some.injEq] at h
      rw [← h]
      simp

theorem assignRanks_map_rank (l : List USearchResult) :
    ∀ i, (assignRanks i l).map (fun r => r.rank) = List.range' i l.length := by
  induction l with
  | nil => intro i; rfl
  | cons r rs ih =>
    intro i
    simp only [assignRanks, List.map_cons, List.length_cons, List.range'_succ]
    rw [ih]

theorem assignRanks_map_distance (l : List USearchResult) :
    ∀ i, (assignRanks i l).map (fun r => r.distance) = l.map (fun r => r.distance) := by
  induction l with
  | nil => intro i; rfl
  | cons r rs ih =>
    intro i
    simp only [assignRanks, List.map_cons]
    rw [ih]

theorem assignRanks_length (l : List USearchResult) :
    ∀ i, (assignRanks i l).length = l.length := by
  intro i
  have h := assignRanks_map_rank l i
  have := congrArg List.length h
  simpa using this

theorem take_range' : ∀ (n s m : Nat), (List.range' s n).take m = List.range' s (min m n) := by
  intro n
  induction n with
  | zero => intro s m; simp
  | succ n ih =>
    intro s m
    cases m with
    | zero => simp
    | succ m =>
      simp only [List.range'_succ, List.take_succ_cons, Nat.succ_min_succ]
      rw [ih]

theorem mem_setAdd_self (l : List String) (s : String) : s ∈ setAdd l s := by
  by_cases h : s ∈ l <;> simp [setAdd, h]

theorem process_folder_marks (st : PipelineState) (folderName : String)
    (contents : FolderContents) :
    is_folder_imported ((process_folder st folderName contents false false).2).tracker
      folderName = true := by
  unfold process_folder
  by_cases h : is_folder_imported st.tracker folderName
  · simp [h]
  · simp only [h, Bool.not_false, Bool.true_and, Bool.false_eq_true, if_false]
    simp only [is_folder_imported, mark_folder_imported]
    exact List.elem_iff.mpr (mem_setAdd_self _ _)

theorem calculate_recency_boost_antitone (d₁ d₂ : Int) (h : d₁ ≤ d₂) :
    calculate_recency_boost d₂ ≤ calculate_recency_boost d₁ := by
  unfold calculate_recency_boost
  split_ifs <;> try omega
  all_goals norm_num

/-! ## Claim theorems -/

/-- C1: running `process_folder` a second time on a folder whose first
(non-dry, non-forced) run completed returns the skipped
`already_imported` report and leaves the whole state — ledger and vector
store, hence the store's chunk count — unchanged, processing no records and
creating no chunks. -/
theorem c1_folder_ingestion_idempotent (st : PipelineState) (folderName : String)
    (contents : FolderContents) :
    process_folder ((process_folder st folderName contents false false).2)
        folderName contents false false
      = (.skipped "already_imported",
         (process_folder st folderName contents false false).2) := by
  have h := process_folder_marks st folderName contents
  generalize hst : (process_folder st folderName contents false false).2 = st1 at h ⊢
  unfold process_folder
  simp [h]

/-- C2: the save/load round-trip of the import ledger does not preserve
ledger behaviour: `_save_history` serialises the uuid sets as JSON lists,
`_load_history` hands them back as lists, and `add_conversation_uuid` /
`add_project_uuid` then call `.add` on a list, which raises
`AttributeError` (modelled as `none`) instead of succeeding — on a fresh
(set-based) ledger the same call succeeds. -/
theorem c2_ledger_roundtrip_add_raises :
    add_conversation_uuid
        (load_history (save_history "2025-01-01T00:00:00" initialHistory)) "conv-1" = none
    ∧ add_project_uuid
        (load_history (save_history "2025-01-01T00:00:00" initialHistory)) "proj-1" = none
    ∧ add_conversation_uuid initialHistory "conv-1"
        = some { initialHistory with conversation_uuids := .pyset ["conv-1"] }
    ∧ is_conversation_imported
        { initialHistory with conversation_uuids := .pyset ["conv-1"] } "conv-1" = true := by
  refine ⟨rfl, rfl, by decide, by decide⟩

/-- C3 counterexample: the persistence trace of `_save_history` is a single
direct write to the tracking file, not a write-to-a-temporary-file followed
by a rename onto it. -/
theorem c3_save_history_not_atomic :
    ¬ isAtomicTempRename
        (save_history_ops "import_history.json" "2025-01-01T00:00:00" initialHistory)
        "import_history.json" := by
  rintro ⟨tmp, content, hne, heq⟩
  simp [save_history_ops] at heq

/-- C3 amended: every persistence of the ledger is one direct in-place
write of the serialised history to the tracking file itself; the trace
contains no rename and touches no other path, so an interruption mid-write
can leave a partially written ledger file. -/
theorem c3_save_history_direct_write (f now : String) (h : LedgerHistory) :
    save_history_ops f now h = [.write f (save_history now h)]
    ∧ (∀ op ∈ save_history_ops f now h, ∀ src dst, op ≠ .rename src dst)
    ∧ (∀ op ∈ save_history_ops f now h, ∀ p c, op = .write p c → p = f) := by
  refine ⟨rfl, ?_, ?_⟩
  · intro op hop src dst
    simp only [save_history_ops, List.mem_singleton] at hop
    rw [hop]
    simp
  · intro op hop p c hw
    simp only [save_history_ops, List.mem_singleton] at hop
    rw [hop] at hw
    cases hw
    rfl

/-- C3 amended, witnessed at the tracker's default path and a fresh
ledger. -/
theorem c3_save_history_direct_write_witness :
    save_history_ops "import_history.json" "2025-01-01T00:00:00" initialHistory
      = [.write "import_history.json"
           (save_history "2025-01-01T00:00:00" initialHistory)] :=
  (c3_save_history_direct_write "import_history.json" "2025-01-01T00:00:00"
    initialHistory).1

set_option maxRecDepth 4000 in
/-- C4 counterexample: `SimpleChunker._chunk_conversation` with
`chunk_size = 10`, `overlap = 5` on a 12-character text with no sentence
terminator cuts at position 10, yet the next window starts at 10 — the cut
itself — and not at `10 - 5`, the cut minus the overlap; the claimed
next-start rule fails. -/
theorem c4_overlap_rule_counterexample :
    simpleWindows 10 5 (List.replicate 12 'a') = [(0, 10), (10, 12)]
    ∧ ((simpleWindows 10 5 (List.replicate 12 'a')).getD 1 (0, 0)).1 = 10
    ∧ ((simpleWindows 10 5 (List.replicate 12 'a')).getD 0 (0, 0)).2 - 5 = 5
    ∧ (10 : Nat) ≠ 5 := by
  refine ⟨by decide, by decide, by decide, by decide⟩

/-- C4 amended: in `ConversationChunker.chunk_text` the next window starts
at exactly `cut - 200` whenever the cut falls before the end of the text
(a 200-character raw overlap); in `SimpleChunker._chunk_conversation` the
next start is `max(start + chunk_size - overlap, cut)`, which is at least
the cut, so consecutive windows never overlap there. -/
theorem c4_overlap_rule_amended :
    (∀ text : List Char,
      List.Chain' (fun w₁ w₂ => w₁.2 < text.length → w₂.1 = w₁.2 - 200)
        (chunkTextWindows text))
    ∧ (∀ (cs ov : Nat) (content : List Char),
      List.Chain' (fun w₁ w₂ => w₁.2 ≤ w₂.1) (simpleWindows cs ov content)) := by
  constructor
  · intro text
    exact chunkTextAux_chain text (text.length + 1) 0
  · intro cs ov content
    unfold simpleWindows
    cases hx : simpleAux cs ov content (content.length + 1) 0 with
    | none => simp
    | some l =>
      simpa using simpleAux_chain cs ov content (content.length + 1) 0 l hx

set_option maxRecDepth 8000 in
/-- C4 amended, witnessed on concrete texts for both chunkers. -/
theorem c4_overlap_rule_amended_witness :
    List.Chain'
      (fun w₁ w₂ => w₁.2 < (List.replicate 1300 'a').length → w₂.1 = w₁.2 - 200)
      (chunkTextWindows (List.replicate 1300 'a'))
    ∧ List.Chain' (fun w₁ w₂ => w₁.2 ≤ w₂.1)
        (simpleWindows 10 5 (List.replicate 12 'a')) :=
  ⟨c4_overlap_rule_amended.1 (List.replicate 1300 'a'),
   c4_overlap_rule_amended.2 10 5 (List.replicate 12 'a')⟩

/-- C5: `_aggregate_results` returns the candidates stably sorted by
ascending distance — equivalently descending final relevance score
`1 - distance` — with ranks `1..N` assigned in that order and the output
truncated to at most `n_results` elements. -/
theorem c5_aggregate_sort_rank_truncate (results : List USearchResult) (n : Nat) :
    ∃ sorted : List USearchResult,
      sorted.Perm results
      ∧ List.Sorted distLE sorted
      ∧ aggregate_results results n = (assignRanks 1 sorted).take n
      ∧ (aggregate_results results n).Pairwise
          (fun a b => 1 - b.distance ≤ 1 - a.distance)
      ∧ (aggregate_results results n).map (fun r => r.rank)
          = List.range' 1 (aggregate_results results n).length
      ∧ (aggregate_results results n).length ≤ n := by
  by_cases hempty : results.isEmpty
  · refine ⟨[], ?_, ?_, ?_, ?_, ?_, ?_⟩ <;>
      simp_all [aggregate_results, assignRanks, List.isEmpty_iff]
  · refine ⟨List.insertionSort distLE results, List.perm_insertionSort distLE results,
      List.sorted_insertionSort distLE results, ?_, ?_, ?_, ?_⟩
    · simp [aggregate_results, hempty]
    · have hsorted : (List.insertionSort distLE results).Pairwise
          (fun a b => 1 - b.distance ≤ 1 - a.distance) :=
        (List.sorted_insertionSort distLE results).imp
          (fun hab => sub_le_sub_left hab 1)
      have hmap : ((assignRanks 1 (List.insertionSort distLE results)).map
            (fun r => r.distance)).Pairwise (fun q₁ q₂ : ℚ => 1 - q₂ ≤ 1 - q₁) := by
        rw [assignRanks_map_distance]
        exact List.pairwise_map.mpr hsorted
      have hpair := List.pairwise_map.mp hmap
      have : (aggregate_results results n).Sublist
          (assignRanks 1 (List.insertionSort distLE results)) := by
        simp only [aggregate_results, hempty, Bool.false_eq_true, if_false]
        exact List.take_sublist n _
      exact hpair.sublist this
    · simp only [aggregate_results, hempty, Bool.false_eq_true, if_false]
      rw [List.map_take, assignRanks_map_rank, take_range', List.length_take,
        assignRanks_length]
    · simp only [aggregate_results, hempty, Bool.false_eq_true, if_false]
      rw [List.length_take]
      omega

set_option maxRecDepth 4000 in
/-- C6 counterexample: on `"code budget integration ticket"` the
`business_analysis` score under the claimed formula (3 single-word hits) is
strictly higher than the `programming` score (1 hit), yet
`categorize_content` returns `programming` because its if/elif chain takes
the first category with any hit — it does not pick the highest score. -/
theorem c6_categorize_counterexample :
    categorize_content (kw "code budget integration ticket") = "programming"
    ∧ claimScore programmingKeywords
        (lowerStr (kw "code budget integration ticket")) = 1
    ∧ claimScore businessKeywords
        (lowerStr (kw "code budget integration ticket")) = 3
    ∧ claimScore aiKeywords
        (lowerStr (kw "code budget integration ticket")) = 0
    ∧ ("programming" : String) ≠ "business_analysis" := by
  refine ⟨by decide, by decide, by decide, by decide, by decide⟩

/-- C6 amended: `categorize_content` is first-match, not highest-score — it
returns the first category of the fixed table (programming,
business_analysis, ai_assistance) any of whose keywords occurs as a
substring of the lowercased text, and returns `general` exactly when no
keyword of any category occurs. -/
theorem c6_categorize_first_match (text : List Char) :
    categorize_content text
      = (firstMatchCategory categoryTable (lowerStr text)).getD "general"
    ∧ (categorize_content text = "general"
        ↔ ∀ p ∈ categoryTable, hasAnyKeyword p.2 (lowerStr text) = false) := by
  cases h1 : hasAnyKeyword programmingKeywords (lowerStr text) <;>
  cases h2 : hasAnyKeyword businessKeywords (lowerStr text) <;>
  cases h3 : hasAnyKeyword aiKeywords (lowerStr text) <;>
  simp [categorize_content, firstMatchCategory, categoryTable, h1, h2, h3]

set_option maxRecDepth 2000 in
/-- C6 amended, witnessed on a concrete text with no keyword hits. -/
theorem c6_categorize_first_match_witness :
    categorize_content (kw "hello there")
      = (firstMatchCategory categoryTable (lowerStr (kw "hello there"))).getD "general"
    ∧ (categorize_content (kw "hello there") = "general"
        ↔ ∀ p ∈ categoryTable,
            hasAnyKeyword p.2 (lowerStr (kw "hello there")) = false) :=
  c6_categorize_first_match (kw "hello there")

/-- C7 counterexample: two candidates with equal raw similarity
`1 - 2 = -1` (distance 2, as a vector store can return) differing only in
age get boosted scores `-3/2` (1 day old) versus `-9/10` (100 days old):
the more recent candidate's final score is strictly below the older one's,
so the claimed inequality fails for negative similarities. -/
theorem c7_recency_boost_counterexample :
    process_result_score 2 (some 1) true < process_result_score 2 (some 100) true := by
  norm_num [process_result_score, calculate_recency_boost]

/-- C7 amended: the boost multiplier is exactly the claimed step function
(×3/2 for age ≤ 7 days, ×6/5 for ≤ 30, ×1 for ≤ 90, ×9/10 otherwise) and
it is antitone in age, so whenever two candidates share a nonnegative raw
similarity (distance ≤ 1) the more recent one's boosted final score is at
least the older one's. -/
theorem c7_recency_boost_monotone :
    (∀ d : Int,
      (d ≤ 7 → calculate_recency_boost d = 3 / 2)
      ∧ (7 < d → d ≤ 30 → calculate_recency_boost d = 6 / 5)
      ∧ (30 < d → d ≤ 90 → calculate_recency_boost d = 1)
      ∧ (90 < d → calculate_recency_boost d = 9 / 10))
    ∧ (∀ (distance : ℚ) (d₁ d₂ : Int), d₁ ≤ d₂ → 0 ≤ 1 - distance →
        process_result_score distance (some d₂) true
          ≤ process_result_score distance (some d₁) true) := by
  constructor
  · intro d
    refine ⟨?_, ?_, ?_, ?_⟩ <;>
      · intros
        unfold calculate_recency_boost
        split_ifs <;> first | rfl | omega
  · intro distance d₁ d₂ hd hsim
    simp only [process_result_score]
    exact mul_le_mul_of_nonneg_left
      (calculate_recency_boost_antitone d₁ d₂ hd) hsim

/-- C7 amended, witnessed at similarity 1/2 and ages 3 versus 50 days. -/
theorem c7_recency_boost_monotone_witness :
    (3 : Int) ≤ 50
    ∧ 0 ≤ 1 - (1 : ℚ) / 2
    ∧ process_result_score ((1 : ℚ) / 2) (some 50) true
        ≤ process_result_score ((1 : ℚ) / 2) (some 3) true :=
  ⟨by norm_num, by norm_num,
   c7_recency_boost_monotone.2 ((1 : ℚ) / 2) 3 50 (by norm_num) (by norm_num)⟩

/-- C8: whatever order the store returns the chunks in,
`reconstruct_messages` yields the messages sorted ascending by
`message_index`, and each message's content is its group's chunk contents
joined with a single space in ascending `chunk_index` order (witnessed by a
sorted permutation `g` of that message's fetched chunks). -/
theorem c8_reconstruction_ordering (chunks : List RawChunk) :
    (reconstruct_messages chunks).Pairwise
      (fun a b => a.message_index ≤ b.message_index)
    ∧ ∀ m ∈ reconstruct_messages chunks, ∃ g : List RawChunk,
        g.Perm (chunksOf chunks m.message_uuid)
        ∧ g.Pairwise (fun a b => a.chunk_index ≤ b.chunk_index)
        ∧ m.content = List.intercalate [' '] (g.map (fun c => c.document)) := by
  constructor
  · exact List.sorted_insertionSort msgLE _
  · intro m hm
    have hm' : m ∈ (groupKeys chunks).map
        (fun u => buildMessage u (chunksOf chunks u)) :=
      (List.perm_insertionSort msgLE _).mem_iff.mp hm
    obtain ⟨u, _, hu⟩ := List.mem_map.mp hm'
    refine ⟨List.insertionSort ciLE (chunksOf chunks u), ?_, ?_, ?_⟩
    · have huuid : m.message_uuid = u := by rw [← hu]; rfl
      rw [huuid]
      exact List.perm_insertionSort ciLE _
    · exact List.sorted_insertionSort ciLE _
    · rw [← hu]
      rfl

set_option maxRecDepth 2000 in
/-- C8, witnessed on three out-of-order chunks of two messages: the
message built for uuid `m1` appears in the output and its content is the
space-join of its chunk contents in `chunk_index` order. -/
theorem c8_reconstruction_ordering_witness :
    buildMessage "m1" (chunksOf demoChunks "m1") ∈ reconstruct_messages demoChunks
    ∧ ∃ g : List RawChunk,
        g.Perm (chunksOf demoChunks
          (buildMessage "m1" (chunksOf demoChunks "m1")).message_uuid)
        ∧ g.Pairwise (fun a b => a.chunk_index ≤ b.chunk_index)
        ∧ (buildMessage "m1" (chunksOf demoChunks "m1")).content
            = List.intercalate [' '] (g.map (fun c => c.document)) :=
  ⟨by decide,
   (c8_reconstruction_ordering demoChunks).2
     (buildMessage "m1" (chunksOf demoChunks "m1")) (by decide)⟩

/-- C9: `SimpleChunker._chunk_conversation` terminates on every finite
input whenever `overlap < chunk_size`: the fueled loop completes within
`len(content) + 1` iterations because every iteration strictly advances the
start cursor. -/
theorem c9_chunker_terminates (cs ov : Nat) (content : List Char) (hov : ov < cs) :
    (simpleAux cs ov content (content.length + 1) 0).isSome
    ∧ ∀ start, start < content.length →
        start < (simpleStep cs ov content start).2 := by
  constructor
  · exact simpleAux_fuel_sufficient cs ov content hov (content.length + 1) 0 (by omega)
  · intro start _
    exact simpleStep_next_gt cs ov content start hov

/-- C9, witnessed with overlap 4 close to chunk size 5 on a small text. -/
theorem c9_chunker_terminates_witness :
    (4 : Nat) < 5
    ∧ (simpleAux 5 4 (kw "ab.de fgh") ((kw "ab.de fgh").length + 1) 0).isSome :=
  ⟨by decide, (c9_chunker_terminates 5 4 (kw "ab.de fgh") (by decide)).1⟩

/-- C10: when the cache backing store is unavailable, the cache-wrapped
computation returns exactly the computed value with the state unchanged,
every get is a miss, and every set is a `false`-returning no-op — no cache
failure reaches the caller. -/
theorem c10_cache_unavailable_passthrough {V : Type} (st : CacheState V)
    (key : String) (ttl : Nat) (compute : Unit → V)
    (h : st.is_available = false) :
    with_cache st key ttl compute = (compute (), st)
    ∧ cacheGet st key = none
    ∧ ∀ v t, cacheSet st key v t = (false, st) := by
  refine ⟨?_, ?_, ?_⟩
  · simp [with_cache, cacheGet, cacheSet, h]
  · simp [cacheGet, h]
  · intro v t
    simp [cacheSet, h]

/-- C10, witnessed on an unavailable cache and the constant computation 42. -/
theorem c10_cache_unavailable_passthrough_witness :
    ({ is_available := false, entries := [] } : CacheState Nat).is_available = false
    ∧ with_cache ({ is_available := false, entries := [] } : CacheState Nat)
        "search:abc" 1800 (fun _ => 42)
      = (42, { is_available := false, entries := [] }) :=
  ⟨rfl,
   (c10_cache_unavailable_passthrough
     ({ is_available := false, entries := [] } : CacheState Nat)
     "search:abc" 1800 (fun _ => 42) rfl).1⟩
